import Mathlib

/-!
# Weather tool server (`MCP_Server/index.js`)

A shallow embedding of the two functions of the server,

* `getWeatherByCity`, the lookup with its two conditional branches and the
  default answer, and
* the handler registered as the tool `getWeatherByCityName`, which wraps the
  JSON text of the lookup's result in one text content block,

together with the parts of the JavaScript language they run on: strings as
sequences of UTF-16 code units, `String.prototype.toLowerCase` and
`JSON.stringify` on objects whose property values are strings or `null`.

The lookup is embedded twice: as a function of its argument, and as the syntax
of its declaration run by an evaluator in which a function body can read and
write the bindings of the module.  The second is where the absence of state is
a property of the source and not of the way it is written down.

`toLowerCase` follows ECMA-262: the string is read as code points, every code
point is replaced by its lowercase mapping, and the result is encoded again.
The mapping of the ASCII code points is fixed here (`A`..`Z` go to `a`..`z`,
everything else stays).  The mapping of the code points from U+0080 on is the
Unicode character database of the engine; it is not part of the repository and
is a parameter `U` of the model.
-/

namespace WeatherServer

/-! ## Strings -/

/-- A JavaScript string: the list of its UTF-16 code units. -/
abbrev JSString := List Nat

/-- The code units of one code point (ECMA-262 `UTF16EncodeCodePoint`). -/
def utf16EncodeCodePoint (cp : Nat) : List Nat :=
  if cp ≤ 0xFFFF then [cp]
  else [(cp - 0x10000) / 0x400 + 0xD800, (cp - 0x10000) % 0x400 + 0xDC00]

/-- The code units of a list of code points (ECMA-262 `CodePointsToString`). -/
def codePointsToString : List Nat → JSString
  | [] => []
  | cp :: rest => utf16EncodeCodePoint cp ++ codePointsToString rest

/-- A string literal of the source, as a JavaScript string. -/
def lit (s : String) : JSString :=
  codePointsToString (s.toList.map Char.toNat)

/-- Code units 0xD800..0xDBFF. -/
def isLeadingSurrogate (u : Nat) : Bool := 0xD800 ≤ u && u ≤ 0xDBFF

/-- Code units 0xDC00..0xDFFF. -/
def isTrailingSurrogate (u : Nat) : Bool := 0xDC00 ≤ u && u ≤ 0xDFFF

/-- The code point of a surrogate pair (ECMA-262 `UTF16SurrogatePairToCodePoint`). -/
def utf16SurrogatePairToCodePoint (lead trail : Nat) : Nat :=
  (lead - 0xD800) * 0x400 + (trail - 0xDC00) + 0x10000

/-- The code points of a string (ECMA-262 `StringToCodePoints`): a leading
surrogate followed by a trailing one is one code point, every other code unit
is a code point of its own, a lone surrogate included. -/
def stringToCodePoints : JSString → List Nat
  | [] => []
  | [u] => [u]
  | u :: v :: rest =>
    if isLeadingSurrogate u && isTrailingSurrogate v then
      utf16SurrogatePairToCodePoint u v :: stringToCodePoints rest
    else
      u :: stringToCodePoints (v :: rest)

/-! ## `String.prototype.toLowerCase` -/

/-- The lowercase mapping of the code points from U+0080 on, as the engine's
Unicode data gives it: the code points before the one mapped (nearest first),
the code point, the code points after it, and the result.  The context is
there for the conditional mappings of `SpecialCasing.txt` (final sigma). -/
abbrev CaseMapping := List Nat → Nat → List Nat → List Nat

/-- The lowercase mapping of an ASCII code point. -/
def asciiToLower (cp : Nat) : Nat :=
  if 0x41 ≤ cp ∧ cp ≤ 0x5A then cp + 0x20 else cp

/-- The lowercase mapping of one code point in its context. -/
def lowercaseMapping (U : CaseMapping) (before : List Nat) (cp : Nat)
    (after : List Nat) : List Nat :=
  if cp < 0x80 then [asciiToLower cp] else U before cp after

/-- Unicode default case conversion `toLowercase` of a list of code points;
`before` holds the code points already passed, nearest first. -/
def toLowercase (U : CaseMapping) : List Nat → List Nat → List Nat
  | _, [] => []
  | before, cp :: after =>
    lowercaseMapping U before cp after ++ toLowercase U (cp :: before) after

/-- The method `String.prototype.toLowerCase`. -/
def toLowerCase (U : CaseMapping) (s : JSString) : JSString :=
  codePointsToString (toLowercase U [] (stringToCodePoints s))

/-! ## Values, objects and `JSON.stringify` -/

/-- The values the parameter `city` is called with. -/
inductive JSValue where
  | undefined
  | null
  | string (s : JSString)
  deriving DecidableEq, Repr

/-- What a call throws; in an `async` function it rejects the promise. -/
inductive JSError where
  | typeError
  | referenceError
  deriving DecidableEq, Repr

/-- The value of a property of a result object. -/
inductive PropertyValue where
  | null
  | string (s : JSString)
  deriving DecidableEq, Repr

/-- An object literal: its properties in the order they are written. -/
abbrev JSObject := List (JSString × PropertyValue)

/-- Whether the object has a property of that name. -/
def JSObject.hasKey (o : JSObject) (k : JSString) : Bool :=
  o.any (fun p => p.1 == k)

/-- The value of a property, `none` when the object has none of that name. -/
def JSObject.get (o : JSObject) (k : JSString) : Option PropertyValue :=
  (o.find? (fun p => p.1 == k)).map Prod.snd

/-- The digit of a value below 16, in lowercase hexadecimal. -/
def hexDigit (n : Nat) : Nat := if n < 10 then 0x30 + n else 0x61 + (n - 10)

/-- The escape `\uXXXX` of a code unit (ECMA-262 `UnicodeEscape`). -/
def unicodeEscape (u : Nat) : JSString :=
  [0x5C, 0x75, hexDigit (u / 0x1000 % 16), hexDigit (u / 0x100 % 16),
    hexDigit (u / 0x10 % 16), hexDigit (u % 16)]

/-- One code point inside a JSON string (the loop body of ECMA-262
`QuoteJSONString`). -/
def quoteJSONCodePoint (cp : Nat) : JSString :=
  if cp = 0x08 then [0x5C, 0x62]
  else if cp = 0x09 then [0x5C, 0x74]
  else if cp = 0x0A then [0x5C, 0x6E]
  else if cp = 0x0C then [0x5C, 0x66]
  else if cp = 0x0D then [0x5C, 0x72]
  else if cp = 0x22 then [0x5C, 0x22]
  else if cp = 0x5C then [0x5C, 0x5C]
  else if cp < 0x20 || isLeadingSurrogate cp || isTrailingSurrogate cp then unicodeEscape cp
  else utf16EncodeCodePoint cp

/-- The escaped code points of a JSON string, in order. -/
def quoteJSONCodePoints : List Nat → JSString
  | [] => []
  | cp :: rest => quoteJSONCodePoint cp ++ quoteJSONCodePoints rest

/-- A string as JSON text (ECMA-262 `QuoteJSONString`). -/
def quoteJSONString (s : JSString) : JSString :=
  [0x22] ++ quoteJSONCodePoints (stringToCodePoints s) ++ [0x22]

/-- A property value as JSON text (ECMA-262 `SerializeJSONProperty`). -/
def serializeJSONProperty : PropertyValue → JSString
  | .null => lit "null"
  | .string s => quoteJSONString s

/-- The members `"key":value` of an object, separated by commas. -/
def serializeJSONMembers : JSObject → JSString
  | [] => []
  | [(k, v)] => quoteJSONString k ++ [0x3A] ++ serializeJSONProperty v
  | (k, v) :: rest =>
    quoteJSONString k ++ [0x3A] ++ serializeJSONProperty v ++ [0x2C] ++ serializeJSONMembers rest

/-- The function `JSON.stringify` on an object, without indentation
(ECMA-262 `SerializeJSONObject` with an empty gap). -/
def jsonStringify (o : JSObject) : JSString :=
  [0x7B] ++ serializeJSONMembers o ++ [0x7D]

/-! ## The server -/

/-- The function `getWeatherByCity(city = '')` of `index.js`.  An omitted or
`undefined` argument takes the default, the empty string; `city.toLowerCase()` throws a
`TypeError` on `null`. -/
def getWeatherByCity (U : CaseMapping) (arg : JSValue) : Except JSError JSObject :=
  let city := match arg with
    | .undefined => JSValue.string (lit "")
    | v => v
  match city with
  | .string s =>
    if toLowerCase U s = lit "patiala" then
      .ok [(lit "temp", .string (lit "30C")), (lit "forecast", .string (lit "chances of high rain"))]
    else if toLowerCase U s = lit "delhi" then
      .ok [(lit "temp", .string (lit "20C")),
        (lit "forecast", .string (lit "chances of high cold weather"))]
    else
      .ok [(lit "temp", .null), (lit "error", .string (lit "Unable to get the data"))]
  | _ => .error .typeError

/-- A content block of a tool response. -/
structure ContentBlock where
  type : JSString
  text : JSString
  deriving DecidableEq, Repr

/-- The response of a tool handler. -/
structure ToolResponse where
  content : List ContentBlock
  deriving DecidableEq, Repr

/-- The handler registered with `server.tool('getWeatherByCityName', ...)`. -/
def getWeatherByCityName (U : CaseMapping) (city : JSValue) : Except JSError ToolResponse :=
  match getWeatherByCity U city with
  | .ok result => .ok { content := [{ type := lit "text", text := jsonStringify result }] }
  | .error e => .error e

/-! ## The function as a program that runs in the module

The declaration of `getWeatherByCity` as syntax, and an evaluator for the
statements and expressions it is written in.  A function body of this language
can read the bindings of the module and assign to them, so that what a call
returns may depend on the state the earlier calls left, and a call may change
that state.  Whether the body of `getWeatherByCity` does is read off its syntax
by the evaluator; it is not part of the evaluator.
-/

/-- A value of the language: the primitives the program meets, and objects
with their properties in order. -/
inductive Value where
  | undefined
  | null
  | boolean (b : Bool)
  | string (s : JSString)
  | object (properties : List (JSString × Value))

/-- The bindings of the module with their current values: the state a call
starts in and the state it leaves. -/
abbrev Store := List (JSString × Value)

/-- The value of a binding of the module, `none` when there is no such binding. -/
def Store.lookup (σ : Store) (name : JSString) : Option Value :=
  (σ.find? (fun p => p.1 == name)).map Prod.snd

/-- The store after an assignment to a binding of the module. -/
def Store.assign (σ : Store) (name : JSString) (v : Value) : Store :=
  σ.map (fun p => if p.1 == name then (p.1, v) else p)

mutual
/-- The expressions of the language. -/
inductive Expression where
  | ident (name : JSString)
  | stringLiteral (s : JSString)
  | nullLiteral
  | strictEquals (left right : Expression)
  | callToLowerCase (object : Expression)
  | objectLiteral (properties : Properties)
/-- The properties of an object literal, in the order they are written. -/
inductive Properties where
  | none
  | property (key : JSString) (value : Expression) (rest : Properties)
end

/-- The statements of the language; a block of one statement is written as
that statement. -/
inductive Statement where
  | ret (e : Expression)
  | assign (name : JSString) (e : Expression)
  | ifThen (condition : Expression) (thenBranch : Statement)
  | seq (first rest : Statement)

/-- A function declaration with one parameter that has a default value. -/
structure FunctionDeclaration where
  param : JSString
  defaultValue : Expression
  body : Statement

/-- The comparison `===` (ECMA-262 `IsStrictlyEqual`).  Two objects are
strictly equal only when they are one object; the values of the model carry no
identity, and two objects compare unequal. -/
def isStrictlyEqual : Value → Value → Bool
  | .undefined, .undefined => true
  | .null, .null => true
  | .boolean a, .boolean b => a == b
  | .string a, .string b => a == b
  | _, _ => false

/-- The conversion to a boolean of the condition of an `if` (ECMA-262
`ToBoolean`). -/
def toBoolean : Value → Bool
  | .undefined => false
  | .null => false
  | .boolean b => b
  | .string s => !s.isEmpty
  | .object _ => true

mutual
/-- The value of an expression, where the parameter `param` holds `arg` and the
module bindings hold what the store says.  An identifier is the parameter, or
a binding of the module, or a `ReferenceError`.  The method `toLowerCase` is
the one of strings; on every other value the call is a `TypeError`. -/
def evalExpression (U : CaseMapping) (param : JSString) (arg : Value) (σ : Store) :
    Expression → Except JSError Value
  | .ident name =>
    if name = param then .ok arg
    else match σ.lookup name with
      | some v => .ok v
      | none => .error .referenceError
  | .stringLiteral s => .ok (.string s)
  | .nullLiteral => .ok .null
  | .strictEquals left right =>
    match evalExpression U param arg σ left with
    | .error e => .error e
    | .ok a =>
      match evalExpression U param arg σ right with
      | .error e => .error e
      | .ok b => .ok (.boolean (isStrictlyEqual a b))
  | .callToLowerCase object =>
    match evalExpression U param arg σ object with
    | .error e => .error e
    | .ok (.string s) => .ok (.string (toLowerCase U s))
    | .ok _ => .error .typeError
  | .objectLiteral properties =>
    match evalProperties U param arg σ properties with
    | .error e => .error e
    | .ok ps => .ok (.object ps)
/-- The properties of an object literal, evaluated in order. -/
def evalProperties (U : CaseMapping) (param : JSString) (arg : Value) (σ : Store) :
    Properties → Except JSError (List (JSString × Value))
  | .none => .ok []
  | .property key value rest =>
    match evalExpression U param arg σ value with
    | .error e => .error e
    | .ok v =>
      match evalProperties U param arg σ rest with
      | .error e => .error e
      | .ok ps => .ok ((key, v) :: ps)
end

/-- How a statement ends. -/
inductive Completion where
  | normal
  | returned (v : Value)
  | thrown (e : JSError)

/-- The execution of a statement: how it ends, the value of the parameter and
the store after it.  An assignment writes the parameter, or a binding of the
module (taken to be declared with `let`), or is a `ReferenceError`. -/
def execStatement (U : CaseMapping) (param : JSString) :
    Statement → Value → Store → Completion × Value × Store
  | .ret e, arg, σ =>
    match evalExpression U param arg σ e with
    | .error err => (.thrown err, arg, σ)
    | .ok v => (.returned v, arg, σ)
  | .assign name e, arg, σ =>
    match evalExpression U param arg σ e with
    | .error err => (.thrown err, arg, σ)
    | .ok v =>
      if name = param then (.normal, v, σ)
      else if (σ.lookup name).isSome then (.normal, arg, σ.assign name v)
      else (.thrown .referenceError, arg, σ)
  | .ifThen condition thenBranch, arg, σ =>
    match evalExpression U param arg σ condition with
    | .error err => (.thrown err, arg, σ)
    | .ok v => if toBoolean v then execStatement U param thenBranch arg σ else (.normal, arg, σ)
  | .seq first rest, arg, σ =>
    match execStatement U param first arg σ with
    | (.normal, arg1, σ1) => execStatement U param rest arg1 σ1
    | ended => ended

/-- A call of a declared function in a state of the module: what the call
returns or throws (for an `async` function, what its promise is resolved or
rejected with) and the state it leaves.  An argument that is `undefined` takes
the default value; a body that ends without `return` returns `undefined`. -/
def callFunction (U : CaseMapping) (f : FunctionDeclaration) (σ : Store) (arg : Value) :
    Except JSError Value × Store :=
  let bound := match arg with
    | .undefined => evalExpression U f.param .undefined σ f.defaultValue
    | v => .ok v
  match bound with
  | .error e => (.error e, σ)
  | .ok v =>
    match execStatement U f.param f.body v σ with
    | (.normal, _, σ1) => (.ok .undefined, σ1)
    | (.returned r, _, σ1) => (.ok r, σ1)
    | (.thrown e, _, σ1) => (.error e, σ1)

/-- Calls one after the other, each in the state the one before left: the
results in order, and the last state. -/
def runCalls (U : CaseMapping) (f : FunctionDeclaration) :
    Store → List Value → List (Except JSError Value) × Store
  | σ, [] => ([], σ)
  | σ, arg :: rest =>
    let step := callFunction U f σ arg
    let tail := runCalls U f step.2 rest
    (step.1 :: tail.1, tail.2)

/-- The declaration of `getWeatherByCity` in `index.js`, lines 10 to 18. -/
def getWeatherByCityDeclaration : FunctionDeclaration where
  param := lit "city"
  defaultValue := .stringLiteral (lit "")
  body :=
    .seq
      (.ifThen
        (.strictEquals (.callToLowerCase (.ident (lit "city"))) (.stringLiteral (lit "patiala")))
        (.ret (.objectLiteral
          (.property (lit "temp") (.stringLiteral (lit "30C"))
            (.property (lit "forecast") (.stringLiteral (lit "chances of high rain")) .none)))))
      (.seq
        (.ifThen
          (.strictEquals (.callToLowerCase (.ident (lit "city"))) (.stringLiteral (lit "delhi")))
          (.ret (.objectLiteral
            (.property (lit "temp") (.stringLiteral (lit "20C"))
              (.property (lit "forecast") (.stringLiteral (lit "chances of high cold weather"))
                .none)))))
        (.ret (.objectLiteral
          (.property (lit "temp") .nullLiteral
            (.property (lit "error") (.stringLiteral (lit "Unable to get the data")) .none)))))

/-- An argument of the lookup as a value of the language. -/
def JSValue.toValue : JSValue → Value
  | .undefined => .undefined
  | .null => .null
  | .string s => .string s

/-- A result object of the lookup as a value of the language. -/
def JSObject.toValue (o : JSObject) : Value :=
  .object (o.map (fun p => (p.1, match p.2 with
    | .null => Value.null
    | .string s => Value.string s)))

/-- The outcome of the lookup as an outcome of the language. -/
def outcomeValue : Except JSError JSObject → Except JSError Value
  | .ok o => .ok o.toValue
  | .error e => .error e

/-- A function that returns the value of a binding of the module, to compare
with: its result follows the state. -/
def readsModuleBinding : FunctionDeclaration where
  param := lit "city"
  defaultValue := .stringLiteral (lit "")
  body := .ret (.ident (lit "lastCity"))

/-- A function that assigns its argument to a binding of the module, to
compare with: it changes the state. -/
def writesModuleBinding : FunctionDeclaration where
  param := lit "city"
  defaultValue := .stringLiteral (lit "")
  body := .assign (lit "lastCity") (.ident (lit "city"))

/-! ## The claims in the words of the specification -/

/-- Whether `s` is a casing of the lowercase word `t`: the same length, and
each code unit of `s` is the letter of `t` at its place or the capital of it. -/
def isCasingOf : JSString → JSString → Bool
  | [], [] => true
  | c :: s, l :: t => (c == l || c + 0x20 == l) && isCasingOf s t
  | _, _ => false

/-- The code units of white space and line terminators below U+0080
(tab, line feed, vertical tab, form feed, carriage return, space). -/
def isAsciiWhiteSpace (u : Nat) : Bool :=
  u == 0x09 || u == 0x0A || u == 0x0B || u == 0x0C || u == 0x0D || u == 0x20

/-- The result object of the branch for Patiala. -/
def foundPatiala : JSObject :=
  [(lit "temp", .string (lit "30C")), (lit "forecast", .string (lit "chances of high rain"))]

/-- The result object of the branch for Delhi. -/
def foundDelhi : JSObject :=
  [(lit "temp", .string (lit "20C")),
    (lit "forecast", .string (lit "chances of high cold weather"))]

/-- The result object of the default branch. -/
def notFound : JSObject :=
  [(lit "temp", .null), (lit "error", .string (lit "Unable to get the data"))]

/-- The property is there and holds a string. -/
def holdsString (o : JSObject) (k : JSString) : Bool :=
  match o.get k with
  | some (.string _) => true
  | _ => false

/-- The Found variant of the specification: temp is a string. -/
def isFound (o : JSObject) : Bool := holdsString o (lit "temp")

/-- The first group is populated: temp and forecast are strings and there is
no error property. -/
def foundGroup (o : JSObject) : Bool :=
  holdsString o (lit "temp") && holdsString o (lit "forecast") && !o.hasKey (lit "error")

/-- The second group is populated: error is a string, temp is null and there
is no forecast property. -/
def errorGroup (o : JSObject) : Bool :=
  holdsString o (lit "error") && o.get (lit "temp") == some .null && !o.hasKey (lit "forecast")

/-! ## Facts about the engine that the parameter stands for -/

/-- Every code point from U+0080 on has a lowercase mapping of at least one
code point, whatever the context. -/
def CaseMapping.NonEmpty (U : CaseMapping) : Prop :=
  ∀ before cp after, 0x80 ≤ cp → U before cp after ≠ []

/-- The lowercase mapping of a code point from U+0080 on contains a code point
from U+0080 on, KELVIN SIGN (U+212A) apart, whose mapping is the letter k. -/
def CaseMapping.KeepsNonAscii (U : CaseMapping) : Prop :=
  ∀ before cp after, 0x80 ≤ cp →
    (∃ x ∈ U before cp after, 0x80 ≤ x) ∨ U before cp after = [0x6B]

/-- A case mapping to evaluate the model with: the capitals of Latin-1,
LATIN CAPITAL LETTER I WITH DOT ABOVE, GREEK CAPITAL LETTER SIGMA with its
final form when it ends a string of more than one code point, and KELVIN SIGN;
every other code point is its own mapping. -/
def sampleCaseMapping : CaseMapping := fun before cp after =>
  if 0xC0 ≤ cp ∧ cp ≤ 0xDE ∧ cp ≠ 0xD7 then [cp + 0x20]
  else if cp = 0x130 then [0x69, 0x307]
  else if cp = 0x3A3 then (if before ≠ [] ∧ after = [] then [0x3C2] else [0x3C3])
  else if cp = 0x212A then [0x6B]
  else [cp]

end WeatherServer

/-! # Proofs -/

namespace WeatherServer

/-! ## Literals -/

theorem lit_patiala : lit "patiala" = [112, 97, 116, 105, 97, 108, 97] := rfl

theorem lit_delhi : lit "delhi" = [100, 101, 108, 104, 105] := rfl

theorem lit_empty : lit "" = [] := rfl

/-! ## Encoding and decoding -/

theorem codePointsToString_append (x y : List Nat) :
    codePointsToString (x ++ y) = codePointsToString x ++ codePointsToString y := by
  induction x with
  | nil => rfl
  | cons a x ih => simp [codePointsToString, ih]

theorem utf16EncodeCodePoint_ne_nil (cp : Nat) : utf16EncodeCodePoint cp ≠ [] := by
  unfold utf16EncodeCodePoint
  split <;> simp

theorem codePointsToString_eq_nil (x : List Nat) (h : codePointsToString x = []) : x = [] := by
  cases x with
  | nil => rfl
  | cons a x =>
    simp [codePointsToString, utf16EncodeCodePoint_ne_nil] at h

theorem codePointsToString_ascii (x : List Nat) (h : ∀ u ∈ x, u < 0x80) :
    codePointsToString x = x := by
  induction x with
  | nil => rfl
  | cons a x ih =>
    have ha : a < 0x80 := h a (List.mem_cons_self _ _)
    have hx : ∀ u ∈ x, u < 0x80 := fun u hu => h u (List.mem_cons_of_mem _ hu)
    have : a ≤ 0xFFFF := by omega
    simp [codePointsToString, utf16EncodeCodePoint, this, ih hx]

theorem lt_of_utf16EncodeCodePoint_lt (cp : Nat)
    (h : ∀ u ∈ utf16EncodeCodePoint cp, u < 0x80) : cp < 0x80 := by
  unfold utf16EncodeCodePoint at h
  split at h
  · exact h cp (List.mem_singleton.mpr rfl)
  · have := h _ (List.mem_cons_self _ _)
    omega

/-- Code units below U+0080 can only come from code points below U+0080. -/
theorem ascii_of_codePointsToString_ascii (x : List Nat)
    (h : ∀ u ∈ codePointsToString x, u < 0x80) : ∀ u ∈ x, u < 0x80 := by
  induction x with
  | nil => simp
  | cons a x ih =>
    intro u hu
    simp only [codePointsToString, List.mem_append] at h
    rcases List.mem_cons.mp hu with rfl | hu
    · exact lt_of_utf16EncodeCodePoint_lt u (fun v hv => h v (Or.inl hv))
    · exact ih (fun v hv => h v (Or.inr hv)) u hu

theorem stringToCodePoints_ascii (s : JSString) (h : ∀ u ∈ s, u < 0x80) :
    stringToCodePoints s = s := by
  induction s with
  | nil => rfl
  | cons a s ih =>
    have ha : a < 0x80 := h a (List.mem_cons_self _ _)
    have hs : ∀ u ∈ s, u < 0x80 := fun u hu => h u (List.mem_cons_of_mem _ hu)
    cases s with
    | nil => rfl
    | cons b s =>
      have hl : isLeadingSurrogate a = false := by
        simp [isLeadingSurrogate]; omega
      rw [stringToCodePoints]
      simp [hl, ih hs]

/-- Code points below U+0080 can only come from code units below U+0080, and
then the code points are the code units. -/
theorem ascii_of_stringToCodePoints_ascii (s : JSString) :
    (∀ u ∈ stringToCodePoints s, u < 0x80) → ∀ u ∈ s, u < 0x80 := by
  induction s using stringToCodePoints.induct with
  | case1 => simp
  | case2 u => simp [stringToCodePoints]
  | case3 u v rest hp ih =>
    intro h
    rw [stringToCodePoints] at h
    simp only [hp, if_true] at h
    have := h _ (List.mem_cons_self _ _)
    simp [utf16SurrogatePairToCodePoint] at this
    omega
  | case4 u v rest hp ih =>
    intro h
    rw [stringToCodePoints] at h
    simp only [hp] at h
    intro w hw
    rcases List.mem_cons.mp hw with rfl | hw
    · exact h _ (List.mem_cons_self _ _)
    · exact ih (fun x hx => h x (List.mem_cons_of_mem _ hx)) w hw

theorem stringToCodePoints_ne_nil (s : JSString) (h : s ≠ []) : stringToCodePoints s ≠ [] := by
  match s, h with
  | [u], _ => simp [stringToCodePoints]
  | u :: v :: rest, _ =>
    rw [stringToCodePoints]
    split <;> simp

/-- Code units below U+0080 in front of a string are code points of their own. -/
theorem stringToCodePoints_ascii_append (c w : JSString) (hc : ∀ u ∈ c, u < 0x80) :
    stringToCodePoints (c ++ w) = c ++ stringToCodePoints w := by
  induction c with
  | nil => rfl
  | cons a c ih =>
    have ha : a < 0x80 := hc a (List.mem_cons_self _ _)
    have hc2 : ∀ u ∈ c, u < 0x80 := fun u hu => hc u (List.mem_cons_of_mem _ hu)
    have hl : isLeadingSurrogate a = false := by
      simp [isLeadingSurrogate]; omega
    cases hcw : c ++ w with
    | nil =>
      have h1 : c = [] := (List.append_eq_nil.mp hcw).1
      have h2 : w = [] := (List.append_eq_nil.mp hcw).2
      subst h1 h2
      rfl
    | cons b r =>
      rw [List.cons_append, hcw, stringToCodePoints]
      simp only [hl, Bool.false_and, Bool.false_eq_true, if_false]
      rw [← hcw, ih hc2]
      rfl

/-- Code units below U+0080 behind a string are code points of their own. -/
theorem stringToCodePoints_append_ascii (w c : JSString) (hc : ∀ u ∈ c, u < 0x80) :
    stringToCodePoints (w ++ c) = stringToCodePoints w ++ c := by
  induction w using stringToCodePoints.induct with
  | case1 => simpa using stringToCodePoints_ascii c hc
  | case2 u =>
    cases c with
    | nil => rfl
    | cons v rest =>
      have hv : v < 0x80 := hc v (List.mem_cons_self _ _)
      have ht : isTrailingSurrogate v = false := by
        simp [isTrailingSurrogate]; omega
      have hr := stringToCodePoints_ascii (v :: rest) hc
      show stringToCodePoints (u :: v :: rest) = stringToCodePoints [u] ++ v :: rest
      simp only [stringToCodePoints, ht, Bool.and_false, Bool.false_eq_true, if_false, hr,
        List.singleton_append]
  | case3 u v rest hp ih =>
    show stringToCodePoints (u :: v :: (rest ++ c)) = stringToCodePoints (u :: v :: rest) ++ c
    rw [stringToCodePoints, stringToCodePoints]
    simp only [hp, if_true, ih, List.cons_append]
  | case4 u v rest hp ih =>
    show stringToCodePoints (u :: v :: (rest ++ c)) = stringToCodePoints (u :: v :: rest) ++ c
    rw [stringToCodePoints, stringToCodePoints]
    simp only [hp]
    have ih2 : stringToCodePoints (v :: (rest ++ c)) = stringToCodePoints (v :: rest) ++ c := ih
    simp only [ih2, List.cons_append]
    rfl

/-! ## Lower case -/

theorem asciiToLower_lt (u : Nat) (h : u < 0x80) : asciiToLower u < 0x80 := by
  unfold asciiToLower
  split <;> omega

theorem asciiToLower_idem (u : Nat) : asciiToLower (asciiToLower u) = asciiToLower u := by
  unfold asciiToLower
  split_ifs <;> omega

theorem toLowercase_append (U : CaseMapping) (before x y : List Nat) :
    ∃ m, toLowercase U before (x ++ y) = m ++ toLowercase U (x.reverse ++ before) y ∧
      (x ≠ [] → U.NonEmpty → m ≠ []) := by
  induction x generalizing before with
  | nil => exact ⟨[], by simp, fun h => absurd rfl h⟩
  | cons a x ih =>
    obtain ⟨m, hm, _⟩ := ih (a :: before)
    refine ⟨lowercaseMapping U before a (x ++ y) ++ m, ?_, ?_⟩
    · simp [toLowercase, hm]
    · intro _ hU
      have : lowercaseMapping U before a (x ++ y) ≠ [] := by
        unfold lowercaseMapping
        split
        · simp
        · exact hU _ _ _ (by omega)
      simp [this]

theorem toLowercase_ascii (U : CaseMapping) (before x : List Nat) (h : ∀ u ∈ x, u < 0x80) :
    toLowercase U before x = x.map asciiToLower := by
  induction x generalizing before with
  | nil => rfl
  | cons a x ih =>
    have ha : a < 0x80 := h a (List.mem_cons_self _ _)
    have hx : ∀ u ∈ x, u < 0x80 := fun u hu => h u (List.mem_cons_of_mem _ hu)
    simp [toLowercase, lowercaseMapping, ha, ih _ hx]

theorem map_asciiToLower_lt (x : List Nat) (h : ∀ u ∈ x, u < 0x80) :
    ∀ u ∈ x.map asciiToLower, u < 0x80 := by
  intro u hu
  obtain ⟨v, hv, rfl⟩ := List.mem_map.mp hu
  exact asciiToLower_lt v (h v hv)

/-- On a string of code units below U+0080 the method maps code unit by code
unit, whatever the engine does elsewhere. -/
theorem toLowerCase_ascii (U : CaseMapping) (s : JSString) (h : ∀ u ∈ s, u < 0x80) :
    toLowerCase U s = s.map asciiToLower := by
  unfold toLowerCase
  rw [stringToCodePoints_ascii s h, toLowercase_ascii U [] s h,
    codePointsToString_ascii _ (map_asciiToLower_lt s h)]

/-- What the spelled-out casing says in terms of the ASCII mapping. -/
theorem isCasingOf_spec (s t : JSString) (h : isCasingOf s t = true)
    (ht : ∀ l ∈ t, 0x61 ≤ l ∧ l ≤ 0x7A) :
    (∀ u ∈ s, u < 0x80) ∧ s.map asciiToLower = t := by
  induction s generalizing t with
  | nil =>
    cases t with
    | nil => simp
    | cons l t => simp [isCasingOf] at h
  | cons c s ih =>
    cases t with
    | nil => simp [isCasingOf] at h
    | cons l t =>
      simp only [isCasingOf, Bool.and_eq_true, Bool.or_eq_true, beq_iff_eq] at h
      have hl := ht l (List.mem_cons_self _ _)
      obtain ⟨h1, h2⟩ := ih t h.2 (fun x hx => ht x (List.mem_cons_of_mem _ hx))
      have hc : c < 0x80 ∧ asciiToLower c = l := by
        unfold asciiToLower
        rcases h.1 with rfl | rfl
        · constructor
          · omega
          · split <;> omega
        · constructor
          · omega
          · split <;> omega
      refine ⟨?_, ?_⟩
      · intro u hu
        rcases List.mem_cons.mp hu with rfl | hu
        · exact hc.1
        · exact h1 u hu
      · simp [hc.2, h2]

/-- Under `KeepsNonAscii`, a lowercase form made of code points below U+0080
other than the letter k comes from code points below U+0080 only. -/
theorem ascii_of_toLowercase_ascii (U : CaseMapping) (hU : U.KeepsNonAscii)
    (before x : List Nat) (h : ∀ l ∈ toLowercase U before x, l < 0x80 ∧ l ≠ 0x6B) :
    ∀ u ∈ x, u < 0x80 := by
  induction x generalizing before with
  | nil => simp
  | cons a x ih =>
    simp only [toLowercase, List.mem_append] at h
    have hx := ih (a :: before) (fun l hl => h l (Or.inr hl))
    intro u hu
    rcases List.mem_cons.mp hu with rfl | hu
    · by_contra hge
      have hm : lowercaseMapping U before u x = U before u x := by
        simp [lowercaseMapping, hge]
      rw [hm] at h
      rcases hU before u x (by omega) with ⟨y, hy, hy2⟩ | hk
      · have := (h y (Or.inl hy)).1
        omega
      · have := (h 0x6B (Or.inl (by simp [hk]))).2
        exact this rfl
    · exact hx u hu

/-- Under `KeepsNonAscii`, the strings whose lowercase form is a given word of
code units below U+0080 without the letter k are the strings of code units
below U+0080 that the ASCII mapping sends to the word. -/
theorem toLowerCase_eq_iff (U : CaseMapping) (hU : U.KeepsNonAscii) (s t : JSString)
    (ht : ∀ l ∈ t, l < 0x80 ∧ l ≠ 0x6B) :
    toLowerCase U s = t ↔ (∀ u ∈ s, u < 0x80) ∧ s.map asciiToLower = t := by
  constructor
  · intro h
    have h1 : ∀ u ∈ toLowercase U [] (stringToCodePoints s), u < 0x80 :=
      ascii_of_codePointsToString_ascii _ (by
        intro u hu
        have : u ∈ t := by rw [← h]; exact hu
        exact (ht u this).1)
    have h2 : codePointsToString (toLowercase U [] (stringToCodePoints s)) =
        toLowercase U [] (stringToCodePoints s) := codePointsToString_ascii _ h1
    have h3 : toLowercase U [] (stringToCodePoints s) = t := by
      rw [← h2]; exact h
    have h4 : ∀ u ∈ stringToCodePoints s, u < 0x80 :=
      ascii_of_toLowercase_ascii U hU [] _ (by rw [h3]; exact ht)
    have h5 := ascii_of_stringToCodePoints_ascii s h4
    exact ⟨h5, by rw [← toLowerCase_ascii U s h5]; exact h⟩
  · rintro ⟨h1, h2⟩
    rw [toLowerCase_ascii U s h1, h2]

/-! ## The lookup, branch by branch -/

theorem getWeatherByCity_string (U : CaseMapping) (s : JSString) :
    getWeatherByCity U (.string s) =
      if toLowerCase U s = lit "patiala" then .ok foundPatiala
      else if toLowerCase U s = lit "delhi" then .ok foundDelhi
      else .ok notFound := rfl

theorem getWeatherByCity_patiala (U : CaseMapping) (s : JSString)
    (h : toLowerCase U s = lit "patiala") :
    getWeatherByCity U (.string s) = .ok foundPatiala := by
  rw [getWeatherByCity_string, if_pos h]

theorem getWeatherByCity_delhi (U : CaseMapping) (s : JSString)
    (h : toLowerCase U s = lit "delhi") :
    getWeatherByCity U (.string s) = .ok foundDelhi := by
  have : toLowerCase U s ≠ lit "patiala" := by
    rw [h]; decide
  rw [getWeatherByCity_string, if_neg this, if_pos h]

theorem getWeatherByCity_other (U : CaseMapping) (s : JSString)
    (h1 : toLowerCase U s ≠ lit "patiala") (h2 : toLowerCase U s ≠ lit "delhi") :
    getWeatherByCity U (.string s) = .ok notFound := by
  rw [getWeatherByCity_string, if_neg h1, if_neg h2]

theorem patiala_letters : ∀ l ∈ lit "patiala", 0x61 ≤ l ∧ l ≤ 0x7A ∧ l ≠ 0x6B := by
  decide

theorem delhi_letters : ∀ l ∈ lit "delhi", 0x61 ≤ l ∧ l ≤ 0x7A ∧ l ≠ 0x6B := by
  decide

theorem toLowerCase_of_casing (U : CaseMapping) (s t : JSString)
    (h : isCasingOf s t = true) (ht : ∀ l ∈ t, 0x61 ≤ l ∧ l ≤ 0x7A ∧ l ≠ 0x6B) :
    toLowerCase U s = t := by
  obtain ⟨h1, h2⟩ := isCasingOf_spec s t h (fun l hl => ⟨(ht l hl).1, (ht l hl).2.1⟩)
  rw [toLowerCase_ascii U s h1, h2]

theorem getWeatherByCity_ascii_other (U : CaseMapping) (s : JSString)
    (h : ∀ u ∈ s, u < 0x80) (h1 : s.map asciiToLower ≠ lit "patiala")
    (h2 : s.map asciiToLower ≠ lit "delhi") :
    getWeatherByCity U (.string s) = .ok notFound := by
  apply getWeatherByCity_other <;> rw [toLowerCase_ascii U s h] <;> assumption

/-- The three results the lookup has for a string. -/
theorem getWeatherByCity_cases (U : CaseMapping) (s : JSString) :
    (toLowerCase U s = lit "patiala" ∧ getWeatherByCity U (.string s) = .ok foundPatiala) ∨
    (toLowerCase U s = lit "delhi" ∧ getWeatherByCity U (.string s) = .ok foundDelhi) ∨
    (toLowerCase U s ≠ lit "patiala" ∧ toLowerCase U s ≠ lit "delhi" ∧
      getWeatherByCity U (.string s) = .ok notFound) := by
  by_cases h1 : toLowerCase U s = lit "patiala"
  · exact Or.inl ⟨h1, getWeatherByCity_patiala U s h1⟩
  · by_cases h2 : toLowerCase U s = lit "delhi"
    · exact Or.inr (Or.inl ⟨h2, getWeatherByCity_delhi U s h2⟩)
    · exact Or.inr (Or.inr ⟨h1, h2, getWeatherByCity_other U s h1 h2⟩)

theorem getWeatherByCityName_of_ok (U : CaseMapping) (v : JSValue) (r : JSObject)
    (h : getWeatherByCity U v = .ok r) :
    getWeatherByCityName U v =
      .ok { content := [{ type := lit "text", text := jsonStringify r }] } := by
  simp [getWeatherByCityName, h]

theorem jsonStringify_foundPatiala :
    jsonStringify foundPatiala =
      lit "\x7b\"temp\":\"30C\",\"forecast\":\"chances of high rain\"\x7d" := by
  rfl

theorem jsonStringify_foundDelhi :
    jsonStringify foundDelhi =
      lit "\x7b\"temp\":\"20C\",\"forecast\":\"chances of high cold weather\"\x7d" := by
  rfl

theorem jsonStringify_notFound :
    jsonStringify notFound = lit "\x7b\"temp\":null,\"error\":\"Unable to get the data\"\x7d" := by
  rfl

/-! ## Longer and shorter strings -/

theorem toLowercase_ascii_append (U : CaseMapping) (before x y : List Nat)
    (hx : ∀ u ∈ x, u < 0x80) :
    toLowercase U before (x ++ y) =
      x.map asciiToLower ++ toLowercase U (x.reverse ++ before) y := by
  induction x generalizing before with
  | nil => rfl
  | cons a x ih =>
    have ha : a < 0x80 := hx a (List.mem_cons_self _ _)
    have hx2 : ∀ u ∈ x, u < 0x80 := fun u hu => hx u (List.mem_cons_of_mem _ hu)
    simp [toLowercase, lowercaseMapping, ha, ih _ hx2]

theorem toLowercase_ne_nil (U : CaseMapping) (hU : U.NonEmpty) (before x : List Nat)
    (hx : x ≠ []) : toLowercase U before x ≠ [] := by
  obtain ⟨m, hm, hne⟩ := toLowercase_append U before x []
  rw [List.append_nil] at hm
  rw [hm]
  simp [toLowercase, hne hx hU]

/-- Code units in front of a word of code units below U+0080 leave code units
in front of the lower-cased word. -/
theorem toLowerCase_append_ascii (U : CaseMapping) (hU : U.NonEmpty) (w c : JSString)
    (hw : w ≠ []) (hc : ∀ u ∈ c, u < 0x80) :
    ∃ y, y ≠ [] ∧ toLowerCase U (w ++ c) = y ++ c.map asciiToLower := by
  obtain ⟨m, hm, hne⟩ := toLowercase_append U [] (stringToCodePoints w) c
  refine ⟨codePointsToString m, ?_, ?_⟩
  · intro h
    exact hne (stringToCodePoints_ne_nil w hw) hU (codePointsToString_eq_nil m h)
  · unfold toLowerCase
    rw [stringToCodePoints_append_ascii w c hc, hm, toLowercase_ascii U _ c hc,
      codePointsToString_append, codePointsToString_ascii _ (map_asciiToLower_lt c hc)]

/-- Code units behind a word of code units below U+0080 leave code units
behind the lower-cased word. -/
theorem toLowerCase_ascii_append (U : CaseMapping) (hU : U.NonEmpty) (c w : JSString)
    (hw : w ≠ []) (hc : ∀ u ∈ c, u < 0x80) :
    ∃ z, z ≠ [] ∧ toLowerCase U (c ++ w) = c.map asciiToLower ++ z := by
  refine ⟨codePointsToString (toLowercase U (c.reverse ++ []) (stringToCodePoints w)), ?_, ?_⟩
  · intro h
    exact toLowercase_ne_nil U hU _ _ (stringToCodePoints_ne_nil w hw)
      (codePointsToString_eq_nil _ h)
  · unfold toLowerCase
    rw [stringToCodePoints_ascii_append c w hc, toLowercase_ascii_append U [] c _ hc,
      codePointsToString_append, codePointsToString_ascii _ (map_asciiToLower_lt c hc)]

theorem word_append_ne (t x z : JSString) (ht : t = lit "patiala" ∨ t = lit "delhi")
    (hx : x = lit "patiala" ∨ x = lit "delhi") (hz : z ≠ []) : t ++ z ≠ x := by
  rcases ht with rfl | rfl <;> rcases hx with rfl | rfl <;>
    simp [lit_patiala, lit_delhi, hz]

theorem append_word_ne (t x y : JSString) (ht : t = lit "patiala" ∨ t = lit "delhi")
    (hx : x = lit "patiala" ∨ x = lit "delhi") (hy : y ≠ []) : y ++ t ≠ x := by
  intro h
  have hr := congrArg List.reverse h
  rw [List.reverse_append] at hr
  have hy2 : y.reverse ≠ [] := by simpa using hy
  rcases ht with rfl | rfl <;> rcases hx with rfl | rfl <;>
    simp [lit_patiala, lit_delhi, hy2] at hr

/-- The casings of the two words, in terms of the ASCII mapping. -/
theorem casing_spec (c : JSString)
    (hc : isCasingOf c (lit "patiala") = true ∨ isCasingOf c (lit "delhi") = true) :
    (∀ u ∈ c, u < 0x80) ∧
      (c.map asciiToLower = lit "patiala" ∨ c.map asciiToLower = lit "delhi") := by
  rcases hc with h | h
  · obtain ⟨h1, h2⟩ := isCasingOf_spec c _ h
      (fun l hl => ⟨(patiala_letters l hl).1, (patiala_letters l hl).2.1⟩)
    exact ⟨h1, Or.inl h2⟩
  · obtain ⟨h1, h2⟩ := isCasingOf_spec c _ h
      (fun l hl => ⟨(delhi_letters l hl).1, (delhi_letters l hl).2.1⟩)
    exact ⟨h1, Or.inr h2⟩

/-! ## Lower-casing twice -/

/-- Under `KeepsNonAscii`, a lower-cased string whose lowercase form is one of
the two words is that word already. -/
theorem toLowerCase_twice_eq_iff (U : CaseMapping) (hU : U.KeepsNonAscii) (s t : JSString)
    (ht : ∀ l ∈ t, 0x61 ≤ l ∧ l ≤ 0x7A ∧ l ≠ 0x6B) :
    toLowerCase U (toLowerCase U s) = t ↔ toLowerCase U s = t := by
  have ht2 : ∀ l ∈ t, l < 0x80 ∧ l ≠ 0x6B := fun l hl =>
    ⟨by have := (ht l hl).2.1; omega, (ht l hl).2.2⟩
  constructor
  · intro h
    obtain ⟨h1, h2⟩ := (toLowerCase_eq_iff U hU _ t ht2).mp h
    have h3 : ∀ l ∈ toLowerCase U s, l < 0x80 ∧ l ≠ 0x6B := by
      intro l hl
      refine ⟨h1 l hl, ?_⟩
      rintro rfl
      have hm : asciiToLower 0x6B ∈ t := by
        rw [← h2]; exact List.mem_map_of_mem _ hl
      exact (ht _ hm).2.2 (by decide)
    obtain ⟨h4, h5⟩ := (toLowerCase_eq_iff U hU s _ h3).mp rfl
    rw [← h2, ← h5, List.map_map]
    apply List.map_congr_left
    intro u _
    exact (asciiToLower_idem u).symm
  · intro h
    rw [h]
    have hlt : ∀ u ∈ t, u < 0x80 := fun u hu => (ht2 u hu).1
    rw [toLowerCase_ascii U t hlt]
    conv_rhs => rw [← List.map_id t]
    apply List.map_congr_left
    intro u hu
    have := ht u hu
    unfold asciiToLower
    split_ifs
    · omega
    · rfl

theorem getWeatherByCity_congr (U : CaseMapping) (a b : JSString)
    (h : toLowerCase U a = toLowerCase U b) :
    getWeatherByCity U (.string a) = getWeatherByCity U (.string b) := by
  rw [getWeatherByCity_string, getWeatherByCity_string, h]

/-! ## The error channel, and the strings that are found -/

/-- The call throws on `null`: the error channel of the model is not empty. -/
theorem getWeatherByCity_null (U : CaseMapping) :
    getWeatherByCity U .null = .error .typeError := rfl

theorem isCasingOf_of_map (s t : JSString) (hs : ∀ u ∈ s, u < 0x80)
    (hm : s.map asciiToLower = t) (ht : ∀ l ∈ t, 0x61 ≤ l ∧ l ≤ 0x7A) :
    isCasingOf s t = true := by
  induction s generalizing t with
  | nil =>
    subst hm
    rfl
  | cons c s ih =>
    subst hm
    have hl := ht (asciiToLower c) (by simp)
    have hrest := ih (s.map asciiToLower)
      (fun u hu => hs u (List.mem_cons_of_mem _ hu)) rfl
      (fun l hl => ht l (by simp only [List.map_cons]; exact List.mem_cons_of_mem _ hl))
    have hc : c = asciiToLower c ∨ c + 0x20 = asciiToLower c := by
      unfold asciiToLower at hl ⊢
      split_ifs at hl ⊢
      · exact Or.inr rfl
      · exact Or.inl rfl
    simp only [List.map_cons, isCasingOf, Bool.and_eq_true, Bool.or_eq_true, beq_iff_eq]
    exact ⟨hc, hrest⟩

/-- Under `KeepsNonAscii`, the strings with a Found result are the casings of
the two words, letter by letter, and no other string. -/
theorem getWeatherByCity_found_iff_casing (U : CaseMapping) (hU : U.KeepsNonAscii)
    (city : JSString) :
    (getWeatherByCity U (.string city) = .ok foundPatiala ↔
      isCasingOf city (lit "patiala") = true) ∧
    (getWeatherByCity U (.string city) = .ok foundDelhi ↔
      isCasingOf city (lit "delhi") = true) := by
  have key : ∀ t : JSString, (∀ l ∈ t, 0x61 ≤ l ∧ l ≤ 0x7A ∧ l ≠ 0x6B) →
      (toLowerCase U city = t ↔ isCasingOf city t = true) := by
    intro t ht
    constructor
    · intro h
      obtain ⟨h1, h2⟩ := (toLowerCase_eq_iff U hU city t
        (fun l hl => ⟨by have := (ht l hl).2.1; omega, (ht l hl).2.2⟩)).mp h
      exact isCasingOf_of_map city t h1 h2 (fun l hl => ⟨(ht l hl).1, (ht l hl).2.1⟩)
    · intro h
      exact toLowerCase_of_casing U city t h ht
  rw [← key _ patiala_letters, ← key _ delhi_letters]
  rcases getWeatherByCity_cases U city with ⟨h, hr⟩ | ⟨h, hr⟩ | ⟨h1, h2, hr⟩
  · have hd : toLowerCase U city ≠ lit "delhi" := by rw [h]; decide
    rw [hr]
    exact ⟨by simp [h], by simp [hd]; decide⟩
  · have hp : toLowerCase U city ≠ lit "patiala" := by rw [h]; decide
    rw [hr]
    exact ⟨by simp [hp]; decide, by simp [h]⟩
  · rw [hr]
    exact ⟨by simp [h1]; decide, by simp [h2]; decide⟩

/-! ## The function as a program -/

theorem outcomeValue_foundPatiala :
    outcomeValue (.ok foundPatiala) =
      .ok (.object [(lit "temp", .string (lit "30C")),
        (lit "forecast", .string (lit "chances of high rain"))]) := rfl

theorem outcomeValue_foundDelhi :
    outcomeValue (.ok foundDelhi) =
      .ok (.object [(lit "temp", .string (lit "20C")),
        (lit "forecast", .string (lit "chances of high cold weather"))]) := rfl

theorem outcomeValue_notFound :
    outcomeValue (.ok notFound) =
      .ok (.object [(lit "temp", .null),
        (lit "error", .string (lit "Unable to get the data"))]) := rfl

/-- A call of the declaration on a string returns what the lookup returns and
leaves the state as it was. -/
theorem callFunction_string (U : CaseMapping) (σ : Store) (s : JSString) :
    callFunction U getWeatherByCityDeclaration σ (.string s) =
      (outcomeValue (getWeatherByCity U (.string s)), σ) := by
  rcases getWeatherByCity_cases U s with ⟨h, hr⟩ | ⟨h, hr⟩ | ⟨h1, h2, hr⟩
  · rw [hr, outcomeValue_foundPatiala]
    simp [callFunction, getWeatherByCityDeclaration, execStatement, evalExpression,
      evalProperties, isStrictlyEqual, toBoolean, h]
  · have hp : lit "delhi" ≠ lit "patiala" := by decide
    rw [hr, outcomeValue_foundDelhi]
    simp [callFunction, getWeatherByCityDeclaration, execStatement, evalExpression,
      evalProperties, isStrictlyEqual, toBoolean, h, hp]
  · rw [hr, outcomeValue_notFound]
    simp [callFunction, getWeatherByCityDeclaration, execStatement, evalExpression,
      evalProperties, isStrictlyEqual, toBoolean, h1, h2]

/-- A call of the declaration on any argument has a result that the argument
fixes, and leaves the state as it was. -/
theorem callFunction_stateless (U : CaseMapping) (arg : Value) :
    ∃ r, ∀ σ : Store, callFunction U getWeatherByCityDeclaration σ arg = (r, σ) := by
  cases arg with
  | undefined =>
    refine ⟨outcomeValue (getWeatherByCity U (.string (lit ""))), fun σ => ?_⟩
    rw [← callFunction_string U σ (lit "")]
    rfl
  | null =>
    exact ⟨.error .typeError, fun σ => by
      simp [callFunction, getWeatherByCityDeclaration, execStatement, evalExpression]⟩
  | boolean b =>
    exact ⟨.error .typeError, fun σ => by
      simp [callFunction, getWeatherByCityDeclaration, execStatement, evalExpression]⟩
  | string s => exact ⟨_, fun σ => callFunction_string U σ s⟩
  | object ps =>
    exact ⟨.error .typeError, fun σ => by
      simp [callFunction, getWeatherByCityDeclaration, execStatement, evalExpression]⟩

theorem runCalls_store (U : CaseMapping) (σ : Store) (args : List Value) :
    (runCalls U getWeatherByCityDeclaration σ args).2 = σ := by
  induction args generalizing σ with
  | nil => rfl
  | cons a rest ih =>
    obtain ⟨r, hr⟩ := callFunction_stateless U a
    simp [runCalls, hr, ih]

theorem runCalls_replicate (U : CaseMapping) (σ : Store) (s : JSString) (n : Nat) :
    (runCalls U getWeatherByCityDeclaration σ (List.replicate n (.string s))).1 =
      List.replicate n (outcomeValue (getWeatherByCity U (.string s))) := by
  induction n generalizing σ with
  | zero => rfl
  | succ n ih =>
    simp [List.replicate_succ, runCalls, callFunction_string, ih]

/-- The evaluator does not make every function stateless: the result of a
function that reads a binding of the module follows the state. -/
theorem readsModuleBinding_follows_state (U : CaseMapping) :
    (callFunction U readsModuleBinding [(lit "lastCity", .string (lit "delhi"))]
        (.string (lit "delhi"))).1 ≠
      (callFunction U readsModuleBinding [(lit "lastCity", .null)] (.string (lit "delhi"))).1 := by
  have hn : lit "lastCity" ≠ lit "city" := by decide
  simp [callFunction, readsModuleBinding, execStatement, evalExpression, Store.lookup, hn]

/-- The evaluator does not make every function stateless: a function that
assigns to a binding of the module changes the state. -/
theorem writesModuleBinding_changes_state (U : CaseMapping) :
    (callFunction U writesModuleBinding [(lit "lastCity", .null)] (.string (lit "delhi"))).2 ≠
      [(lit "lastCity", .null)] := by
  have hn : lit "lastCity" ≠ lit "city" := by decide
  simp [callFunction, writesModuleBinding, execStatement, evalExpression, Store.lookup,
    Store.assign, hn]

/-! ## The sample case mapping -/

theorem sampleCaseMapping_keepsNonAscii : sampleCaseMapping.KeepsNonAscii := by
  intro before cp after h
  unfold sampleCaseMapping
  split_ifs
  · exact Or.inl ⟨cp + 0x20, by simp, by omega⟩
  · exact Or.inl ⟨0x307, by simp, by omega⟩
  · exact Or.inl ⟨0x3C2, by simp, by omega⟩
  · exact Or.inl ⟨0x3C3, by simp, by omega⟩
  · exact Or.inr rfl
  · exact Or.inl ⟨cp, by simp, h⟩

theorem sampleCaseMapping_nonEmpty : sampleCaseMapping.NonEmpty := by
  intro before cp after _
  unfold sampleCaseMapping
  split_ifs <;> simp

end WeatherServer

/-! # The claims -/

namespace WeatherServer

/-- C1: for every string that is a casing of "patiala" (each of the seven
letters upper or lower case), the lookup returns the object with temp "30C" and
forecast "chances of high rain", which has no error property. -/
theorem getWeatherByCity_patiala_casings (U : CaseMapping) (city : JSString)
    (h : isCasingOf city (lit "patiala") = true) :
    getWeatherByCity U (.string city) =
        .ok [(lit "temp", .string (lit "30C")),
          (lit "forecast", .string (lit "chances of high rain"))] ∧
      JSObject.hasKey [(lit "temp", .string (lit "30C")),
          (lit "forecast", .string (lit "chances of high rain"))] (lit "error") = false :=
  ⟨getWeatherByCity_patiala U city (toLowerCase_of_casing U city _ h patiala_letters), by decide⟩

/-- C1 at the casing "PaTiAlA" with the sample case mapping. -/
theorem getWeatherByCity_patiala_casings_witness :
    isCasingOf (lit "PaTiAlA") (lit "patiala") = true ∧
      (getWeatherByCity sampleCaseMapping (.string (lit "PaTiAlA")) =
          .ok [(lit "temp", .string (lit "30C")),
            (lit "forecast", .string (lit "chances of high rain"))] ∧
        JSObject.hasKey [(lit "temp", .string (lit "30C")),
            (lit "forecast", .string (lit "chances of high rain"))] (lit "error") = false) :=
  ⟨by decide, getWeatherByCity_patiala_casings sampleCaseMapping (lit "PaTiAlA") (by decide)⟩

/-- C2: for every string that is a casing of "delhi" (each of the five letters
upper or lower case), the lookup returns the object with temp "20C" and
forecast "chances of high cold weather", which has no error property. -/
theorem getWeatherByCity_delhi_casings (U : CaseMapping) (city : JSString)
    (h : isCasingOf city (lit "delhi") = true) :
    getWeatherByCity U (.string city) =
        .ok [(lit "temp", .string (lit "20C")),
          (lit "forecast", .string (lit "chances of high cold weather"))] ∧
      JSObject.hasKey [(lit "temp", .string (lit "20C")),
          (lit "forecast", .string (lit "chances of high cold weather"))] (lit "error") = false :=
  ⟨getWeatherByCity_delhi U city (toLowerCase_of_casing U city _ h delhi_letters), by decide⟩

/-- C2 at the casing "DELHI" with the sample case mapping. -/
theorem getWeatherByCity_delhi_casings_witness :
    isCasingOf (lit "DELHI") (lit "delhi") = true ∧
      (getWeatherByCity sampleCaseMapping (.string (lit "DELHI")) =
          .ok [(lit "temp", .string (lit "20C")),
            (lit "forecast", .string (lit "chances of high cold weather"))] ∧
        JSObject.hasKey [(lit "temp", .string (lit "20C")),
            (lit "forecast", .string (lit "chances of high cold weather"))] (lit "error") = false) :=
  ⟨by decide, getWeatherByCity_delhi_casings sampleCaseMapping (lit "DELHI") (by decide)⟩

/-- C3: a string whose lower-cased form is neither "patiala" nor "delhi" gets
the NotFound result, temp null and error "Unable to get the data"; the result
is Found exactly when the lower-cased form is "patiala" or "delhi"; the empty
string, "Mumbai" and the strings of ASCII white space get NotFound. -/
theorem getWeatherByCity_notFound (U : CaseMapping) (city : JSString) :
    (toLowerCase U city ≠ lit "patiala" → toLowerCase U city ≠ lit "delhi" →
      getWeatherByCity U (.string city) =
        .ok [(lit "temp", .null), (lit "error", .string (lit "Unable to get the data"))]) ∧
    (∃ r, getWeatherByCity U (.string city) = .ok r ∧
      (isFound r = true ↔
        toLowerCase U city = lit "patiala" ∨ toLowerCase U city = lit "delhi")) ∧
    getWeatherByCity U (.string (lit "")) = .ok notFound ∧
    getWeatherByCity U (.string (lit "Mumbai")) = .ok notFound ∧
    ((∀ u ∈ city, isAsciiWhiteSpace u = true) →
      getWeatherByCity U (.string city) = .ok notFound) := by
  refine ⟨fun h1 h2 => getWeatherByCity_other U city h1 h2, ?_, ?_, ?_, ?_⟩
  · rcases getWeatherByCity_cases U city with ⟨h, hr⟩ | ⟨h, hr⟩ | ⟨h1, h2, hr⟩
    · exact ⟨_, hr, by simp [h]; decide⟩
    · exact ⟨_, hr, by simp [h]; decide⟩
    · exact ⟨_, hr, by simp [h1, h2]; decide⟩
  · exact getWeatherByCity_ascii_other U _ (by decide) (by decide) (by decide)
  · exact getWeatherByCity_ascii_other U _ (by decide) (by decide) (by decide)
  · intro hw
    have hlt : ∀ u ∈ city, u < 0x80 := by
      intro u hu
      have := hw u hu
      simp [isAsciiWhiteSpace] at this
      omega
    have hne : ∀ t : JSString, (∀ l ∈ t, 0x61 ≤ l) → t ≠ [] → city.map asciiToLower ≠ t := by
      intro t ht htn heq
      cases city with
      | nil => exact htn (by simpa using heq.symm)
      | cons c rest =>
        have hc := hw c (List.mem_cons_self _ _)
        have hm : asciiToLower c ∈ t := by rw [← heq]; simp
        have := ht _ hm
        simp [isAsciiWhiteSpace] at hc
        unfold asciiToLower at this
        split_ifs at this <;> omega
    exact getWeatherByCity_ascii_other U city hlt
      (hne _ (fun l hl => (patiala_letters l hl).1) (by decide))
      (hne _ (fun l hl => (delhi_letters l hl).1) (by decide))

/-- C4: for every string the handler returns one content block of type "text"
whose text is one of the three JSON texts; it is the first for "Patiala", the
second for "delhi" and "DELHI", the third for the empty string and "Mumbai". -/
theorem getWeatherByCityName_response (U : CaseMapping) (city : JSString) :
    (∃ text, getWeatherByCityName U (.string city) =
        .ok { content := [{ type := lit "text", text := text }] } ∧
      (text = lit "\x7b\"temp\":\"30C\",\"forecast\":\"chances of high rain\"\x7d" ∨
        text = lit "\x7b\"temp\":\"20C\",\"forecast\":\"chances of high cold weather\"\x7d" ∨
        text = lit "\x7b\"temp\":null,\"error\":\"Unable to get the data\"\x7d")) ∧
    getWeatherByCityName U (.string (lit "Patiala")) =
      .ok { content := [{
        type := lit "text"
        text := lit "\x7b\"temp\":\"30C\",\"forecast\":\"chances of high rain\"\x7d" }] } ∧
    getWeatherByCityName U (.string (lit "delhi")) =
      .ok { content := [{
        type := lit "text"
        text := lit "\x7b\"temp\":\"20C\",\"forecast\":\"chances of high cold weather\"\x7d" }] } ∧
    getWeatherByCityName U (.string (lit "DELHI")) =
      .ok { content := [{
        type := lit "text"
        text := lit "\x7b\"temp\":\"20C\",\"forecast\":\"chances of high cold weather\"\x7d" }] } ∧
    getWeatherByCityName U (.string (lit "")) =
      .ok { content := [{
        type := lit "text"
        text := lit "\x7b\"temp\":null,\"error\":\"Unable to get the data\"\x7d" }] } ∧
    getWeatherByCityName U (.string (lit "Mumbai")) =
      .ok { content := [{
        type := lit "text"
        text := lit "\x7b\"temp\":null,\"error\":\"Unable to get the data\"\x7d" }] } := by
  refine ⟨?_, ?_, ?_, ?_, ?_, ?_⟩
  · rcases getWeatherByCity_cases U city with ⟨_, hr⟩ | ⟨_, hr⟩ | ⟨_, _, hr⟩
    · exact ⟨_, getWeatherByCityName_of_ok U _ _ hr, Or.inl jsonStringify_foundPatiala⟩
    · exact ⟨_, getWeatherByCityName_of_ok U _ _ hr, Or.inr (Or.inl jsonStringify_foundDelhi)⟩
    · exact ⟨_, getWeatherByCityName_of_ok U _ _ hr, Or.inr (Or.inr jsonStringify_notFound)⟩
  · rw [getWeatherByCityName_of_ok U _ _ (getWeatherByCity_patiala U _
      (toLowerCase_of_casing U _ _ (by decide) patiala_letters)), jsonStringify_foundPatiala]
  · rw [getWeatherByCityName_of_ok U _ _ (getWeatherByCity_delhi U _
      (toLowerCase_of_casing U _ _ (by decide) delhi_letters)), jsonStringify_foundDelhi]
  · rw [getWeatherByCityName_of_ok U _ _ (getWeatherByCity_delhi U _
      (toLowerCase_of_casing U _ _ (by decide) delhi_letters)), jsonStringify_foundDelhi]
  · rw [getWeatherByCityName_of_ok U _ _ (getWeatherByCity_ascii_other U _
      (by decide) (by decide) (by decide)), jsonStringify_notFound]
  · rw [getWeatherByCityName_of_ok U _ _ (getWeatherByCity_ascii_other U _
      (by decide) (by decide) (by decide)), jsonStringify_notFound]

/-- C5: on every string the lookup returns a result, one of the two Found
objects or the NotFound object, and never throws; a string it does not
recognise gets the NotFound object as its returned value. -/
theorem getWeatherByCity_total (U : CaseMapping) (city : JSString) :
    (∃ r, getWeatherByCity U (.string city) = .ok r ∧
      (r = foundPatiala ∨ r = foundDelhi ∨ r = notFound)) ∧
    (∀ e, getWeatherByCity U (.string city) ≠ .error e) ∧
    (toLowerCase U city ≠ lit "patiala" → toLowerCase U city ≠ lit "delhi" →
      getWeatherByCity U (.string city) = .ok notFound) := by
  refine ⟨?_, ?_, fun h1 h2 => getWeatherByCity_other U city h1 h2⟩
  · rcases getWeatherByCity_cases U city with ⟨_, hr⟩ | ⟨_, hr⟩ | ⟨_, _, hr⟩
    · exact ⟨_, hr, Or.inl rfl⟩
    · exact ⟨_, hr, Or.inr (Or.inl rfl)⟩
    · exact ⟨_, hr, Or.inr (Or.inr rfl)⟩
  · intro e
    rcases getWeatherByCity_cases U city with ⟨_, hr⟩ | ⟨_, hr⟩ | ⟨_, _, hr⟩ <;>
      rw [hr] <;> simp

/-- C6: the result for a string always has the temp property and populates
exactly one of the two groups: temp and forecast strings without error, or
error a string with temp null and without forecast. -/
theorem getWeatherByCity_one_group (U : CaseMapping) (city : JSString) :
    ∃ r, getWeatherByCity U (.string city) = .ok r ∧
      r.hasKey (lit "temp") = true ∧
      ((foundGroup r = true ∧ errorGroup r = false) ∨
        (errorGroup r = true ∧ foundGroup r = false)) := by
  rcases getWeatherByCity_cases U city with ⟨_, hr⟩ | ⟨_, hr⟩ | ⟨_, _, hr⟩
  · exact ⟨_, hr, by decide, Or.inl (by decide)⟩
  · exact ⟨_, hr, by decide, Or.inl (by decide)⟩
  · exact ⟨_, hr, by decide, Or.inr (by decide)⟩

/-- C7: the lookup is deterministic and without state.  A call of the
declaration of index.js on a string, in any state of the module, returns the
result of the lookup for that string and leaves the state as it was; so the
result is the same in any two states, the same after any earlier calls, and
the same each time when the call is repeated. -/
theorem getWeatherByCity_deterministic (U : CaseMapping) (city : JSString)
    (σ σ' : Store) (earlier : List Value) (n : Nat) :
    callFunction U getWeatherByCityDeclaration σ (.string city) =
      (outcomeValue (getWeatherByCity U (.string city)), σ) ∧
    (callFunction U getWeatherByCityDeclaration σ' (.string city)).1 =
      (callFunction U getWeatherByCityDeclaration σ (.string city)).1 ∧
    (callFunction U getWeatherByCityDeclaration
        (runCalls U getWeatherByCityDeclaration σ earlier).2 (.string city)).1 =
      (callFunction U getWeatherByCityDeclaration σ (.string city)).1 ∧
    (runCalls U getWeatherByCityDeclaration σ earlier).2 = σ ∧
    (runCalls U getWeatherByCityDeclaration σ (List.replicate n (.string city))).1 =
      List.replicate n (outcomeValue (getWeatherByCity U (.string city))) := by
  refine ⟨callFunction_string U σ city, ?_, ?_, runCalls_store U σ earlier,
    runCalls_replicate U σ city n⟩
  · rw [callFunction_string, callFunction_string]
  · rw [callFunction_string, callFunction_string]

/-- C10: called without an argument, the lookup takes the empty string for
city and returns the NotFound object, as it does for the empty string; it does
not throw. -/
theorem getWeatherByCity_undefined (U : CaseMapping) :
    getWeatherByCity U .undefined =
      .ok [(lit "temp", .null), (lit "error", .string (lit "Unable to get the data"))] ∧
    getWeatherByCity U .undefined = getWeatherByCity U (.string (lit "")) ∧
    (∀ e, getWeatherByCity U .undefined ≠ .error e) := by
  have h : getWeatherByCity U .undefined = getWeatherByCity U (.string (lit "")) := rfl
  have h2 : getWeatherByCity U (.string (lit "")) = .ok notFound :=
    getWeatherByCity_ascii_other U _ (by decide) (by decide) (by decide)
  refine ⟨by rw [h, h2]; rfl, h, ?_⟩
  intro e
  rw [h, h2]
  simp

/-- C8: no trimming and no partial matching: for a casing c of "patiala" or
"delhi" and a non-empty string w, the lookup returns NotFound for w followed
by c, for c followed by w, and for every proper start of c. -/
theorem getWeatherByCity_no_trimming (U : CaseMapping) (hU : U.NonEmpty) (c w : JSString)
    (hc : isCasingOf c (lit "patiala") = true ∨ isCasingOf c (lit "delhi") = true)
    (hw : w ≠ []) :
    getWeatherByCity U (.string (w ++ c)) = .ok notFound ∧
    getWeatherByCity U (.string (c ++ w)) = .ok notFound ∧
    (∀ p r : JSString, r ≠ [] → p ++ r = c →
      getWeatherByCity U (.string p) = .ok notFound) := by
  obtain ⟨hlt, hword⟩ := casing_spec c hc
  refine ⟨?_, ?_, ?_⟩
  · obtain ⟨y, hy, he⟩ := toLowerCase_append_ascii U hU w c hw hlt
    apply getWeatherByCity_other <;> rw [he]
    · exact append_word_ne _ _ y hword (Or.inl rfl) hy
    · exact append_word_ne _ _ y hword (Or.inr rfl) hy
  · obtain ⟨z, hz, he⟩ := toLowerCase_ascii_append U hU c w hw hlt
    apply getWeatherByCity_other <;> rw [he]
    · exact word_append_ne _ _ z hword (Or.inl rfl) hz
    · exact word_append_ne _ _ z hword (Or.inr rfl) hz
  · intro p r hr hpr
    have hp : ∀ u ∈ p, u < 0x80 := fun u hu => hlt u (by rw [← hpr]; simp [hu])
    have hsplit : p.map asciiToLower ++ r.map asciiToLower = c.map asciiToLower := by
      rw [← hpr, List.map_append]
    have hr2 : r.map asciiToLower ≠ [] := by simpa using hr
    apply getWeatherByCity_ascii_other U p hp
    · intro h
      exact word_append_ne _ _ _ (Or.inl h) hword hr2 hsplit
    · intro h
      exact word_append_ne _ _ _ (Or.inr h) hword hr2 hsplit

/-- C8 at the casing "Delhi" and a single space, with the sample case mapping. -/
theorem getWeatherByCity_no_trimming_witness :
    sampleCaseMapping.NonEmpty ∧
    (isCasingOf (lit "Delhi") (lit "patiala") = true ∨
      isCasingOf (lit "Delhi") (lit "delhi") = true) ∧
    lit " " ≠ [] ∧
    (getWeatherByCity sampleCaseMapping (.string (lit " " ++ lit "Delhi")) = .ok notFound ∧
      getWeatherByCity sampleCaseMapping (.string (lit "Delhi" ++ lit " ")) = .ok notFound ∧
      (∀ p r : JSString, r ≠ [] → p ++ r = lit "Delhi" →
        getWeatherByCity sampleCaseMapping (.string p) = .ok notFound)) :=
  ⟨sampleCaseMapping_nonEmpty, by decide, by decide,
    getWeatherByCity_no_trimming sampleCaseMapping sampleCaseMapping_nonEmpty
      (lit "Delhi") (lit " ") (by decide) (by decide)⟩

/-- C9: the result depends on the string through its lower-cased form only:
the lookup gives the same result for a string and for its lower-cased form,
and two strings with the same lower-cased form get equal results. -/
theorem getWeatherByCity_lowerCase_only (U : CaseMapping) (hU : U.KeepsNonAscii)
    (city other : JSString) :
    getWeatherByCity U (.string city) = getWeatherByCity U (.string (toLowerCase U city)) ∧
    (toLowerCase U city = toLowerCase U other →
      getWeatherByCity U (.string city) = getWeatherByCity U (.string other)) := by
  refine ⟨?_, getWeatherByCity_congr U city other⟩
  have h1 := toLowerCase_twice_eq_iff U hU city _ patiala_letters
  have h2 := toLowerCase_twice_eq_iff U hU city _ delhi_letters
  rw [getWeatherByCity_string, getWeatherByCity_string]
  simp only [h1, h2]

/-- C9 at "DELHI" written with a dotted capital I (U+0130) and at "dELHi", with
the sample case mapping. -/
theorem getWeatherByCity_lowerCase_only_witness :
    sampleCaseMapping.KeepsNonAscii ∧
    (getWeatherByCity sampleCaseMapping (.string [0x44, 0x45, 0x4C, 0x48, 0x130]) =
        getWeatherByCity sampleCaseMapping
          (.string (toLowerCase sampleCaseMapping [0x44, 0x45, 0x4C, 0x48, 0x130])) ∧
      (toLowerCase sampleCaseMapping [0x44, 0x45, 0x4C, 0x48, 0x130] =
          toLowerCase sampleCaseMapping (lit "dELHi") →
        getWeatherByCity sampleCaseMapping (.string [0x44, 0x45, 0x4C, 0x48, 0x130]) =
          getWeatherByCity sampleCaseMapping (.string (lit "dELHi")))) :=
  ⟨sampleCaseMapping_keepsNonAscii,
    getWeatherByCity_lowerCase_only sampleCaseMapping sampleCaseMapping_keepsNonAscii
      [0x44, 0x45, 0x4C, 0x48, 0x130] (lit "dELHi")⟩

end WeatherServer
